import Mathlib

/-!
# The ipset facade (`ipset_linux.go`)

A shallow embedding of the exported surface of package `ipset`: the three
option setters, the set-level operations, and the entry operations that parse
a textual entry and hand it to the netlink engine.

* Engine methods are state transformers `σ → error × σ` over an arbitrary
  world state `σ` (socket, sequence counter, kernel sets).
* The engine itself (`internal/netlink`) and the parsers of Go's `net/netip`
  are parameters: every theorem holds for every engine and every parser.
* `traced` wraps an engine so that each request it receives is appended to a
  log; "the facade calls the engine once" is a statement about that log.
-/

/-- A non-nil Go error value, identified by its message text. -/
structure GoError where
  text : String
deriving DecidableEq, Repr

/-- Go's `error` interface value: `none` is `nil`. -/
abbrev error := Option GoError

namespace netip

/-- The `z` field of Go's `netip.Addr`: `z0` for the zero Addr, `z4` for IPv4,
`z6noz` for IPv6 without a zone, otherwise the IPv6 zone name. -/
inductive Zone where
  | z0
  | z4
  | z6noz
  | zone (name : String)
deriving DecidableEq, Repr

/-- Go's `netip.Addr`: a 128-bit number and the family/zone marker. -/
structure Addr where
  addr : Nat
  z : Zone
deriving DecidableEq, Repr

/-- Go's `Addr.Is6`: the address is IPv6 (including IPv4-mapped IPv6). -/
def Addr.Is6 (ip : Addr) : Bool :=
  ip.z != Zone.z0 && ip.z != Zone.z4

/-- Go's `netip.Prefix`: an address and the prefix length plus one
(`bitsPlusOne = 0` marks the invalid, zero Prefix). -/
structure Prefix where
  ip : netip.Addr
  bitsPlusOne : Nat
deriving DecidableEq, Repr

/-- The composite literal `netip.Prefix{}`: the zero value. -/
def Prefix.zero : Prefix :=
  { ip := { addr := 0, z := Zone.z0 }, bitsPlusOne := 0 }

/-- Go's `Prefix.Addr`: the address component, exactly as stored. -/
def Prefix.Addr (p : Prefix) : netip.Addr :=
  p.ip

/-- The two parsing functions of `net/netip` used by the facade. They belong
to the Go standard library, so they are taken as parameters. -/
structure Parsers where
  ParseAddr : String → Except GoError netip.Addr
  ParsePrefix : String → Except GoError netip.Prefix

end netip

namespace netlink

/-- Modelled from the spec: the declaration of `netlink.Options` lives in
`internal/netlink`, which is not under src/. The spec lists its fields as
`ipv6` (default false), `timeout` (seconds, default 0) and `excl` (default
false); the setters in `ipset_linux.go` write `IPv6`, `Timeout` (a uint32,
here a natural number on which no arithmetic is done) and `Excl`. -/
structure Options where
  IPv6 : Bool := false
  Timeout : Nat := 0
  Excl : Bool := false
deriving DecidableEq, Repr

/-- Go's `netlink.Option = func(opts *Options)`: a setter that updates the
Options it is given. -/
abbrev Option := Options → Options

/-- The command codes of package `netlink` that the facade uses. Their
numeric values are declared outside src/, so they are parameters. -/
structure Consts where
  IPSET_CMD_ADD : Int
  IPSET_CMD_DEL : Int

/-- The methods of `*netlink.NetLink` that the facade calls, for a given
receiver. The engine is not under src/, so it is a parameter; each method maps
the world state before the call to the returned error and the state after. -/
structure NetLink (σ : Type) where
  Close : σ → error × σ
  CreateSet : String → List netlink.Option → σ → error × σ
  DestroySet : String → σ → error × σ
  FlushSet : String → σ → error × σ
  HandleAddr : Int → String → netip.Addr → netip.Prefix → List netlink.Option → σ → error × σ

/-- One request received by the engine, with its arguments. -/
inductive EngineCall where
  | Close
  | CreateSet (setName : String) (opts : List netlink.Option)
  | DestroySet (setName : String)
  | FlushSet (setName : String)
  | HandleAddr (cmd : Int) (setName : String) (ip : netip.Addr) (cidr : netip.Prefix)
      (opts : List netlink.Option)

/-- The option list carried by a request (empty for requests without one). -/
def EngineCall.opts : EngineCall → List netlink.Option
  | EngineCall.CreateSet _ opts => opts
  | EngineCall.HandleAddr _ _ _ _ opts => opts
  | _ => []

/-- The same request with the command code of a `HandleAddr` replaced. -/
def EngineCall.withCmd (cmd : Int) : EngineCall → EngineCall
  | EngineCall.HandleAddr _ setName ip cidr opts =>
    EngineCall.HandleAddr cmd setName ip cidr opts
  | c => c

/-- The same request with its option list replaced. -/
def EngineCall.withOpts (opts : List netlink.Option) : EngineCall → EngineCall
  | EngineCall.CreateSet setName _ => EngineCall.CreateSet setName opts
  | EngineCall.HandleAddr cmd setName ip cidr _ =>
    EngineCall.HandleAddr cmd setName ip cidr opts
  | c => c

/-- Run one engine method and append the request to the log. -/
def record {σ : Type} (c : EngineCall) (m : σ → error × σ) :
    σ × List EngineCall → error × (σ × List EngineCall) :=
  fun s => ((m s.1).1, ((m s.1).2, s.2 ++ [c]))

/-- The same engine, instrumented: every method behaves as before on the world
state and appends the request it received to a log carried beside it. -/
def traced {σ : Type} (nl : NetLink σ) : NetLink (σ × List EngineCall) where
  Close := record EngineCall.Close nl.Close
  CreateSet := fun setName opts =>
    record (EngineCall.CreateSet setName opts) (nl.CreateSet setName opts)
  DestroySet := fun setName => record (EngineCall.DestroySet setName) (nl.DestroySet setName)
  FlushSet := fun setName => record (EngineCall.FlushSet setName) (nl.FlushSet setName)
  HandleAddr := fun cmd setName ip cidr opts =>
    record (EngineCall.HandleAddr cmd setName ip cidr opts) (nl.HandleAddr cmd setName ip cidr opts)

/-- Modelled from the spec: the loop with which the engine applies an option
list is in `internal/netlink`, not under src/. Following the spec's "chained
setters" over a value with documented defaults, the options are applied in
order, each to the result of the previous one. -/
def applyOptions (opts : List netlink.Option) (o : Options) : Options :=
  opts.foldl (fun acc opt => opt acc) o

end netlink

namespace ipset

/-- OptIPv6 sets the `family inet6` parameter. -/
def OptIPv6 : netlink.Option :=
  fun opts => { opts with IPv6 := true }

/-- OptTimeout sets the `timeout xx` parameter. -/
def OptTimeout (timeout : Nat) : netlink.Option :=
  fun opts => { opts with Timeout := timeout }

/-- OptExcl sets the exclusive flag. -/
def OptExcl : netlink.Option :=
  fun opts => { opts with Excl := true }

/-- CloseNetLink: `return nl.Close()`. -/
def CloseNetLink {σ : Type} (nl : netlink.NetLink σ) : σ → error × σ :=
  nl.Close

/-- Create creates a new set: `return nl.CreateSet(setName, opts...)`. -/
def Create {σ : Type} (nl : netlink.NetLink σ) (setName : String)
    (opts : List netlink.Option) : σ → error × σ :=
  nl.CreateSet setName opts

/-- Destroy destroys a named set: `return nl.DestroySet(setName)`. -/
def Destroy {σ : Type} (nl : netlink.NetLink σ) (setName : String) : σ → error × σ :=
  nl.DestroySet setName

/-- Flush flushes a named set: `return nl.FlushSet(setName)`. -/
def Flush {σ : Type} (nl : netlink.NetLink σ) (setName : String) : σ → error × σ :=
  nl.FlushSet setName

/-- The body of handleEntry: try `ParseAddr`, then `ParsePrefix`, and return
the second error when both fail. -/
def handleEntry {σ : Type} (P : netip.Parsers) (nl : netlink.NetLink σ) (cmd : Int)
    (setName entry : String) (opts : List netlink.Option) : σ → error × σ :=
  match P.ParseAddr entry with
  | Except.ok ip => nl.HandleAddr cmd setName ip netip.Prefix.zero opts
  | Except.error _ =>
    match P.ParsePrefix entry with
    | Except.ok cidr => nl.HandleAddr cmd setName cidr.Addr cidr opts
    | Except.error err => fun st => (some err, st)

/-- Add adds an entry to the named set. -/
def Add {σ : Type} (P : netip.Parsers) (K : netlink.Consts) (nl : netlink.NetLink σ)
    (setName entry : String) (opts : List netlink.Option) : σ → error × σ :=
  handleEntry P nl K.IPSET_CMD_ADD setName entry opts

/-- Del deletes an entry from the named set; it takes no options. -/
def Del {σ : Type} (P : netip.Parsers) (K : netlink.Consts) (nl : netlink.NetLink σ)
    (setName entry : String) : σ → error × σ :=
  handleEntry P nl K.IPSET_CMD_DEL setName entry []

/-- AddAddr adds an addr to the named set. -/
def AddAddr {σ : Type} (K : netlink.Consts) (nl : netlink.NetLink σ) (setName : String)
    (ip : netip.Addr) (opts : List netlink.Option) : σ → error × σ :=
  nl.HandleAddr K.IPSET_CMD_ADD setName ip netip.Prefix.zero opts

/-- DelAddr deletes an addr from the named set. -/
def DelAddr {σ : Type} (K : netlink.Consts) (nl : netlink.NetLink σ) (setName : String)
    (ip : netip.Addr) : σ → error × σ :=
  nl.HandleAddr K.IPSET_CMD_DEL setName ip netip.Prefix.zero []

/-- AddPrefix adds a cidr to the named set. -/
def AddPrefix {σ : Type} (K : netlink.Consts) (nl : netlink.NetLink σ) (setName : String)
    (cidr : netip.Prefix) (opts : List netlink.Option) : σ → error × σ :=
  nl.HandleAddr K.IPSET_CMD_ADD setName cidr.Addr cidr opts

/-- DelPrefix deletes a cidr from the named set. -/
def DelPrefix {σ : Type} (K : netlink.Consts) (nl : netlink.NetLink σ) (setName : String)
    (cidr : netip.Prefix) : σ → error × σ :=
  nl.HandleAddr K.IPSET_CMD_DEL setName cidr.Addr cidr []

/-- The requests an operation sends to the engine when started in world state
`st`: the log left by running it on the instrumented engine from an empty log. -/
def calls {σ : Type} (op : σ × List netlink.EngineCall → error × (σ × List netlink.EngineCall))
    (st : σ) : List netlink.EngineCall :=
  (op (st, [])).2.2

end ipset

namespace ipset

/-! ## The configuration-struct view of an option list -/

/-- The three setters the facade offers, as data: what a caller wrote. -/
inductive OptionKind where
  | ipv6
  | timeout (t : Nat)
  | excl
deriving DecidableEq, Repr

/-- The setter closure a written option stands for. -/
def OptionKind.toOption : OptionKind → netlink.Option
  | OptionKind.ipv6 => OptIPv6
  | OptionKind.timeout t => OptTimeout t
  | OptionKind.excl => OptExcl

/-- The argument of a timeout option, if it is one. -/
def OptionKind.timeoutArg : OptionKind → Option Nat
  | OptionKind.timeout t => some t
  | _ => none

/-- The argument of the last timeout option of the list, or 0 when the list
has none. -/
def lastTimeout (L : List OptionKind) : Nat :=
  ((L.filterMap OptionKind.timeoutArg).getLast?).getD 0

/-- The plain configuration struct described by a list of written options:
`ipv6` iff the list has an IPv6 option, `excl` iff it has an exclusive option,
`timeout` the last timeout given, else 0. -/
def configOf (L : List OptionKind) : netlink.Options :=
  { IPv6 := decide (OptionKind.ipv6 ∈ L)
    Timeout := lastTimeout L
    Excl := decide (OptionKind.excl ∈ L) }

/-! ## Sample parsers and a sample engine, for concrete instances -/

/-- The address 1.1.1.1. -/
def sampleAddr4 : netip.Addr :=
  { addr := 16843009, z := netip.Zone.z4 }

/-- The address 2022::1. -/
def sampleAddr6 : netip.Addr :=
  { addr := 0x20220000000000000000000000000001, z := netip.Zone.z6noz }

/-- The prefix 192.168.1.0/24. -/
def samplePrefix4 : netip.Prefix :=
  { ip := { addr := 3232235776, z := netip.Zone.z4 }, bitsPlusOne := 25 }

/-- The prefix 2022::1/32, address bits kept as written. -/
def samplePrefix6 : netip.Prefix :=
  { ip := sampleAddr6, bitsPlusOne := 33 }

/-- A small parser pair that knows the four entries named in the doc comment
of Add and rejects everything else, each parser with its own error. -/
def sampleParsers : netip.Parsers where
  ParseAddr := fun s =>
    if s = "1.1.1.1" then Except.ok sampleAddr4
    else if s = "2022::1" then Except.ok sampleAddr6
    else Except.error { text := "ParseAddr: unable to parse IP" }
  ParsePrefix := fun s =>
    if s = "192.168.1.0/24" then Except.ok samplePrefix4
    else if s = "2022::1/32" then Except.ok samplePrefix6
    else Except.error { text := "netip.ParsePrefix: no slash" }

/-- The command codes of the kernel's ipset protocol. -/
def sampleConsts : netlink.Consts :=
  { IPSET_CMD_ADD := 9, IPSET_CMD_DEL := 10 }

/-- A toy engine whose world state is the list of existing set names. Entry
requests fail on an unknown set and on a family that disagrees with the
options; exclusive creation fails on an existing set. -/
def sampleNetLink : netlink.NetLink (List String) where
  Close := fun st => (none, st)
  CreateSet := fun setName opts st =>
    if setName ∈ st then
      (if (netlink.applyOptions opts {}).Excl then some { text := "already exists" } else none, st)
    else (none, setName :: st)
  DestroySet := fun setName st =>
    if setName ∈ st then (none, st.erase setName) else (some { text := "not found" }, st)
  FlushSet := fun setName st =>
    if setName ∈ st then (none, st) else (some { text := "not found" }, st)
  HandleAddr := fun _ setName ip _ opts st =>
    if setName ∈ st then
      (if ip.Is6 = (netlink.applyOptions opts {}).IPv6 then none
        else some { text := "invalid argument" }, st)
    else (some { text := "not found" }, st)

end ipset

namespace ipset

open netlink (EngineCall traced applyOptions)

/-! ## Auxiliary facts about the embedding -/

theorem traced_HandleAddr_apply {σ : Type} (nl : netlink.NetLink σ) (cmd : Int)
    (setName : String) (ip : netip.Addr) (cidr : netip.Prefix) (opts : List netlink.Option)
    (st : σ) (log : List EngineCall) :
    (traced nl).HandleAddr cmd setName ip cidr opts (st, log)
      = ((nl.HandleAddr cmd setName ip cidr opts st).1,
          ((nl.HandleAddr cmd setName ip cidr opts st).2,
            log ++ [EngineCall.HandleAddr cmd setName ip cidr opts])) :=
  rfl

theorem handleEntry_of_addr {σ : Type} (P : netip.Parsers) (nl : netlink.NetLink σ) (cmd : Int)
    (setName s : String) (opts : List netlink.Option) (a : netip.Addr)
    (h : P.ParseAddr s = Except.ok a) :
    handleEntry P nl cmd setName s opts = nl.HandleAddr cmd setName a netip.Prefix.zero opts := by
  simp only [handleEntry, h]

theorem handleEntry_of_cidr {σ : Type} (P : netip.Parsers) (nl : netlink.NetLink σ) (cmd : Int)
    (setName s : String) (opts : List netlink.Option) (e : GoError) (p : netip.Prefix)
    (h1 : P.ParseAddr s = Except.error e) (h2 : P.ParsePrefix s = Except.ok p) :
    handleEntry P nl cmd setName s opts = nl.HandleAddr cmd setName p.Addr p opts := by
  simp only [handleEntry, h1, h2]

theorem handleEntry_of_neither {σ : Type} (P : netip.Parsers) (nl : netlink.NetLink σ)
    (cmd : Int) (setName s : String) (opts : List netlink.Option) (e1 e2 : GoError)
    (h1 : P.ParseAddr s = Except.error e1) (h2 : P.ParsePrefix s = Except.error e2) :
    handleEntry P nl cmd setName s opts = fun st => (some e2, st) := by
  simp only [handleEntry, h1, h2]

/-- Whatever the entry string, handleEntry sends the engine nothing, or one
`HandleAddr` request carrying the command, set name and options it was given. -/
theorem calls_handleEntry_cases {σ : Type} (P : netip.Parsers) (nl : netlink.NetLink σ)
    (cmd : Int) (setName s : String) (opts : List netlink.Option) (st : σ) :
    calls (handleEntry P (traced nl) cmd setName s opts) st = []
      ∨ ∃ ip cidr, calls (handleEntry P (traced nl) cmd setName s opts) st
          = [EngineCall.HandleAddr cmd setName ip cidr opts] := by
  cases h1 : P.ParseAddr s with
  | ok a =>
    right
    exact ⟨a, netip.Prefix.zero, by rw [handleEntry_of_addr P _ cmd setName s opts a h1]; rfl⟩
  | error e1 =>
    cases h2 : P.ParsePrefix s with
    | ok p =>
      right
      exact ⟨p.Addr, p, by rw [handleEntry_of_cidr P _ cmd setName s opts e1 p h1 h2]; rfl⟩
    | error e2 =>
      left
      rw [handleEntry_of_neither P _ cmd setName s opts e1 e2 h1 h2]
      rfl

/-! ## Unparseable entries -/

/-- C1: when neither `ParseAddr(s)` nor `ParsePrefix(s)` succeeds, handleEntry
(and so Add and Del) returns the error of the second attempt, `ParsePrefix`,
not the error of `ParseAddr`, and sends nothing to the engine: the world state
and the request log are left as they were. -/
theorem unparseable_entry_returns_second_error {σ : Type} (P : netip.Parsers)
    (K : netlink.Consts) (nl : netlink.NetLink σ) (cmd : Int) (setName s : String)
    (opts : List netlink.Option) (e1 e2 : GoError)
    (h1 : P.ParseAddr s = Except.error e1) (h2 : P.ParsePrefix s = Except.error e2)
    (st : σ) (log : List EngineCall) :
    handleEntry P nl cmd setName s opts st = (some e2, st)
      ∧ handleEntry P (traced nl) cmd setName s opts (st, log) = (some e2, (st, log))
      ∧ Add P K (traced nl) setName s opts (st, log) = (some e2, (st, log))
      ∧ Del P K (traced nl) setName s (st, log) = (some e2, (st, log))
      ∧ (e1 ≠ e2 → (handleEntry P nl cmd setName s opts st).1 ≠ some e1) := by
  refine ⟨?_, ?_, ?_, ?_, ?_⟩
  · rw [handleEntry_of_neither P nl cmd setName s opts e1 e2 h1 h2]
  · rw [handleEntry_of_neither P _ cmd setName s opts e1 e2 h1 h2]
  · unfold Add
    rw [handleEntry_of_neither P _ _ setName s opts e1 e2 h1 h2]
  · unfold Del
    rw [handleEntry_of_neither P _ _ setName s [] e1 e2 h1 h2]
  · intro hne
    rw [handleEntry_of_neither P nl cmd setName s opts e1 e2 h1 h2]
    intro heq
    exact hne (Option.some.inj heq).symm

theorem unparseable_entry_returns_second_error_witness :
    sampleParsers.ParseAddr "bogus" = Except.error { text := "ParseAddr: unable to parse IP" }
      ∧ sampleParsers.ParsePrefix "bogus" = Except.error { text := "netip.ParsePrefix: no slash" }
      ∧ Add sampleParsers sampleConsts (traced sampleNetLink) "s" "bogus" [OptIPv6] (["s"], [])
          = (some { text := "netip.ParsePrefix: no slash" }, (["s"], [])) :=
  ⟨rfl, rfl,
    (unparseable_entry_returns_second_error sampleParsers sampleConsts sampleNetLink 9 "s" "bogus"
      [OptIPv6] _ _ rfl rfl ["s"] []).2.2.1⟩

/-! ## Parseable entries -/

/-- C2: when `ParseAddr(s)` succeeds with address `a`, handleEntry is exactly
`nl.HandleAddr(cmd, setName, a, netip.Prefix{}, opts...)`: the engine gets one
request with the zero prefix and the command, set name and options unchanged,
the facade returns the engine result, and replacing `ParsePrefix` by any other
function changes nothing. -/
theorem bare_address_gets_the_zero_value_cidr {σ : Type} (P : netip.Parsers)
    (nl : netlink.NetLink σ) (cmd : Int) (setName s : String) (opts : List netlink.Option)
    (a : netip.Addr) (h : P.ParseAddr s = Except.ok a) :
    handleEntry P nl cmd setName s opts = nl.HandleAddr cmd setName a netip.Prefix.zero opts
      ∧ (∀ (st : σ) (log : List EngineCall),
          handleEntry P (traced nl) cmd setName s opts (st, log)
            = ((nl.HandleAddr cmd setName a netip.Prefix.zero opts st).1,
                ((nl.HandleAddr cmd setName a netip.Prefix.zero opts st).2,
                  log ++ [EngineCall.HandleAddr cmd setName a netip.Prefix.zero opts])))
      ∧ (∀ pp : String → Except GoError netip.Prefix,
          handleEntry { ParseAddr := P.ParseAddr, ParsePrefix := pp } nl cmd setName s opts
            = handleEntry P nl cmd setName s opts) := by
  refine ⟨handleEntry_of_addr P nl cmd setName s opts a h, ?_, ?_⟩
  · intro st log
    rw [handleEntry_of_addr P _ cmd setName s opts a h, traced_HandleAddr_apply]
  · intro pp
    rw [handleEntry_of_addr P nl cmd setName s opts a h,
      handleEntry_of_addr { ParseAddr := P.ParseAddr, ParsePrefix := pp } nl cmd setName s opts a h]

theorem bare_address_gets_the_zero_value_cidr_witness :
    sampleParsers.ParseAddr "1.1.1.1" = Except.ok sampleAddr4
      ∧ handleEntry sampleParsers sampleNetLink 9 "s" "1.1.1.1" [OptTimeout 60]
          = sampleNetLink.HandleAddr 9 "s" sampleAddr4 netip.Prefix.zero [OptTimeout 60]
      ∧ handleEntry sampleParsers (traced sampleNetLink) 9 "s" "1.1.1.1" [OptTimeout 60]
            (["s"], [])
          = (none, (["s"],
              [EngineCall.HandleAddr 9 "s" sampleAddr4 netip.Prefix.zero [OptTimeout 60]])) :=
  ⟨rfl,
    (bare_address_gets_the_zero_value_cidr sampleParsers sampleNetLink 9 "s" "1.1.1.1"
      [OptTimeout 60] sampleAddr4 rfl).1,
    (bare_address_gets_the_zero_value_cidr sampleParsers sampleNetLink 9 "s" "1.1.1.1"
      [OptTimeout 60] sampleAddr4 rfl).2.1 ["s"] []⟩

/-- C3: when `ParseAddr(s)` fails and `ParsePrefix(s)` succeeds with prefix
`p`, handleEntry is exactly `nl.HandleAddr(cmd, setName, p.Addr(), p, opts...)`:
the engine gets one request whose address is the stored address component of
the very prefix passed beside it, with no masking or rewriting. -/
theorem cidr_reaches_engine_with_its_own_address {σ : Type} (P : netip.Parsers)
    (nl : netlink.NetLink σ) (cmd : Int) (setName s : String) (opts : List netlink.Option)
    (e : GoError) (p : netip.Prefix)
    (h1 : P.ParseAddr s = Except.error e) (h2 : P.ParsePrefix s = Except.ok p) :
    handleEntry P nl cmd setName s opts = nl.HandleAddr cmd setName p.Addr p opts
      ∧ (∀ (st : σ) (log : List EngineCall),
          handleEntry P (traced nl) cmd setName s opts (st, log)
            = ((nl.HandleAddr cmd setName p.Addr p opts st).1,
                ((nl.HandleAddr cmd setName p.Addr p opts st).2,
                  log ++ [EngineCall.HandleAddr cmd setName p.ip p opts])))
      ∧ p.Addr = p.ip := by
  refine ⟨handleEntry_of_cidr P nl cmd setName s opts e p h1 h2, ?_, rfl⟩
  intro st log
  rw [handleEntry_of_cidr P _ cmd setName s opts e p h1 h2, traced_HandleAddr_apply]
  rfl

theorem cidr_reaches_engine_with_its_own_address_witness :
    sampleParsers.ParseAddr "2022::1/32" = Except.error { text := "ParseAddr: unable to parse IP" }
      ∧ sampleParsers.ParsePrefix "2022::1/32" = Except.ok samplePrefix6
      ∧ handleEntry sampleParsers (traced sampleNetLink) 10 "s" "2022::1/32" [] (["s"], [])
          = (some { text := "invalid argument" }, (["s"],
              [EngineCall.HandleAddr 10 "s" sampleAddr6 samplePrefix6 []])) :=
  ⟨rfl, rfl,
    (cidr_reaches_engine_with_its_own_address sampleParsers sampleNetLink 10 "s" "2022::1/32" []
      _ samplePrefix6 rfl rfl).2.1 ["s"] []⟩

/-- The requests of handleEntry for two commands and two option lists are
the same up to the command and the option list. -/
theorem calls_handleEntry_relabel {σ : Type} (P : netip.Parsers) (nl : netlink.NetLink σ)
    (cmd cmd2 : Int) (setName s : String) (opts opts2 : List netlink.Option) (st : σ) :
    calls (handleEntry P (traced nl) cmd2 setName s opts2) st
      = (calls (handleEntry P (traced nl) cmd setName s opts) st).map
          (fun c => EngineCall.withOpts opts2 (EngineCall.withCmd cmd2 c)) := by
  cases h1 : P.ParseAddr s with
  | ok a =>
    rw [handleEntry_of_addr P _ cmd setName s opts a h1,
      handleEntry_of_addr P _ cmd2 setName s opts2 a h1]
    rfl
  | error e1 =>
    cases h2 : P.ParsePrefix s with
    | ok p =>
      rw [handleEntry_of_cidr P _ cmd setName s opts e1 p h1 h2,
        handleEntry_of_cidr P _ cmd2 setName s opts2 e1 p h1 h2]
      rfl
    | error e2 =>
      rw [handleEntry_of_neither P _ cmd setName s opts e1 e2 h1 h2,
        handleEntry_of_neither P _ cmd2 setName s opts2 e1 e2 h1 h2]
      rfl

/-- C4, as stated, fails: with a non-empty option list the request of a delete
is not the request of the add with only the command replaced. For the entry
"1.1.1.1" and the options `[OptTimeout 60]`, Add, AddAddr and AddPrefix send the
engine a request carrying that option list, while Del, DelAddr and DelPrefix
send one carrying the empty list. -/
theorem add_and_del_differ_beyond_the_command :
    sampleConsts.IPSET_CMD_DEL = 10
      ∧ sampleParsers.ParseAddr "1.1.1.1" = Except.ok sampleAddr4
      ∧ calls (Add sampleParsers sampleConsts (traced sampleNetLink) "s" "1.1.1.1"
            [OptTimeout 60]) ["s"]
          = [EngineCall.HandleAddr 9 "s" sampleAddr4 netip.Prefix.zero [OptTimeout 60]]
      ∧ calls (Del sampleParsers sampleConsts (traced sampleNetLink) "s" "1.1.1.1") ["s"]
          = [EngineCall.HandleAddr 10 "s" sampleAddr4 netip.Prefix.zero []]
      ∧ ¬ (calls (Del sampleParsers sampleConsts (traced sampleNetLink) "s" "1.1.1.1") ["s"]
          = (calls (Add sampleParsers sampleConsts (traced sampleNetLink) "s" "1.1.1.1"
              [OptTimeout 60]) ["s"]).map (EngineCall.withCmd 10))
      ∧ ¬ (calls (DelAddr sampleConsts (traced sampleNetLink) "s" sampleAddr4) ["s"]
          = (calls (AddAddr sampleConsts (traced sampleNetLink) "s" sampleAddr4
              [OptTimeout 60]) ["s"]).map (EngineCall.withCmd 10))
      ∧ ¬ (calls (DelPrefix sampleConsts (traced sampleNetLink) "s" samplePrefix4) ["s"]
          = (calls (AddPrefix sampleConsts (traced sampleNetLink) "s" samplePrefix4
              [OptTimeout 60]) ["s"]).map (EngineCall.withCmd 10)) := by
  refine ⟨rfl, rfl, rfl, rfl, ?_, ?_, ?_⟩
  · intro h
    have h2 := congrArg (List.map (fun c => (EngineCall.opts c).length)) h
    revert h2
    decide
  · intro h
    have h2 := congrArg (List.map (fun c => (EngineCall.opts c).length)) h
    revert h2
    decide
  · intro h
    have h2 := congrArg (List.map (fun c => (EngineCall.opts c).length)) h
    revert h2
    decide

/-- C4, amended: Add is handleEntry with `IPSET_CMD_ADD` and the caller's
options, Del is handleEntry with `IPSET_CMD_DEL` and no options. Whenever the
entry parses, the one engine request of Add carries `IPSET_CMD_ADD` and `opts`,
the one of Del carries `IPSET_CMD_DEL` and the empty option list, and both
carry the same set name, address and prefix; the same holds for
AddAddr/DelAddr and AddPrefix/DelPrefix. So the requests of a delete are those
of the add with the command replaced and the option list emptied, and they
differ only in the command when the add is given no options. -/
theorem add_and_del_differ_by_command_and_options {σ : Type} (P : netip.Parsers)
    (K : netlink.Consts) (nl : netlink.NetLink σ) (setName s : String)
    (opts : List netlink.Option) (st : σ) :
    Add P K nl setName s opts = handleEntry P nl K.IPSET_CMD_ADD setName s opts
      ∧ Del P K nl setName s = handleEntry P nl K.IPSET_CMD_DEL setName s []
      ∧ (∀ a, P.ParseAddr s = Except.ok a →
          calls (Add P K (traced nl) setName s opts) st
              = [EngineCall.HandleAddr K.IPSET_CMD_ADD setName a netip.Prefix.zero opts]
            ∧ calls (Del P K (traced nl) setName s) st
              = [EngineCall.HandleAddr K.IPSET_CMD_DEL setName a netip.Prefix.zero []])
      ∧ (∀ e p, P.ParseAddr s = Except.error e → P.ParsePrefix s = Except.ok p →
          calls (Add P K (traced nl) setName s opts) st
              = [EngineCall.HandleAddr K.IPSET_CMD_ADD setName p.Addr p opts]
            ∧ calls (Del P K (traced nl) setName s) st
              = [EngineCall.HandleAddr K.IPSET_CMD_DEL setName p.Addr p []])
      ∧ (∀ ip, calls (AddAddr K (traced nl) setName ip opts) st
              = [EngineCall.HandleAddr K.IPSET_CMD_ADD setName ip netip.Prefix.zero opts]
            ∧ calls (DelAddr K (traced nl) setName ip) st
              = [EngineCall.HandleAddr K.IPSET_CMD_DEL setName ip netip.Prefix.zero []])
      ∧ (∀ cidr, calls (AddPrefix K (traced nl) setName cidr opts) st
              = [EngineCall.HandleAddr K.IPSET_CMD_ADD setName cidr.Addr cidr opts]
            ∧ calls (DelPrefix K (traced nl) setName cidr) st
              = [EngineCall.HandleAddr K.IPSET_CMD_DEL setName cidr.Addr cidr []])
      ∧ (calls (Del P K (traced nl) setName s) st
            = (calls (Add P K (traced nl) setName s opts) st).map
                (fun c => EngineCall.withOpts [] (EngineCall.withCmd K.IPSET_CMD_DEL c))
          ∧ (∀ ip, calls (DelAddr K (traced nl) setName ip) st
            = (calls (AddAddr K (traced nl) setName ip opts) st).map
                (fun c => EngineCall.withOpts [] (EngineCall.withCmd K.IPSET_CMD_DEL c)))
          ∧ (∀ cidr, calls (DelPrefix K (traced nl) setName cidr) st
            = (calls (AddPrefix K (traced nl) setName cidr opts) st).map
                (fun c => EngineCall.withOpts [] (EngineCall.withCmd K.IPSET_CMD_DEL c))))
      ∧ (calls (Del P K (traced nl) setName s) st
            = (calls (Add P K (traced nl) setName s []) st).map
                (EngineCall.withCmd K.IPSET_CMD_DEL)
          ∧ (∀ ip, calls (DelAddr K (traced nl) setName ip) st
            = (calls (AddAddr K (traced nl) setName ip []) st).map
                (EngineCall.withCmd K.IPSET_CMD_DEL))
          ∧ (∀ cidr, calls (DelPrefix K (traced nl) setName cidr) st
            = (calls (AddPrefix K (traced nl) setName cidr []) st).map
                (EngineCall.withCmd K.IPSET_CMD_DEL))) := by
  refine ⟨rfl, rfl, ?_, ?_, fun ip => ⟨rfl, rfl⟩, fun cidr => ⟨rfl, rfl⟩,
    ⟨?_, fun ip => rfl, fun cidr => rfl⟩, ⟨?_, fun ip => rfl, fun cidr => rfl⟩⟩
  · intro a h
    constructor
    · unfold Add
      rw [handleEntry_of_addr P _ _ setName s opts a h]
      rfl
    · unfold Del
      rw [handleEntry_of_addr P _ _ setName s [] a h]
      rfl
  · intro e p h1 h2
    constructor
    · unfold Add
      rw [handleEntry_of_cidr P _ _ setName s opts e p h1 h2]
      rfl
    · unfold Del
      rw [handleEntry_of_cidr P _ _ setName s [] e p h1 h2]
      rfl
  · unfold Add Del
    exact calls_handleEntry_relabel P nl K.IPSET_CMD_ADD K.IPSET_CMD_DEL setName s opts [] st
  · unfold Add Del
    rcases calls_handleEntry_cases P nl K.IPSET_CMD_ADD setName s [] st with h | ⟨ip, cidr, h⟩
    · rw [calls_handleEntry_relabel P nl K.IPSET_CMD_ADD K.IPSET_CMD_DEL setName s [] [] st, h]
      rfl
    · rw [calls_handleEntry_relabel P nl K.IPSET_CMD_ADD K.IPSET_CMD_DEL setName s [] [] st, h]
      rfl

theorem add_and_del_differ_by_command_and_options_witness :
    sampleParsers.ParseAddr "2022::1" = Except.ok sampleAddr6
      ∧ calls (Add sampleParsers sampleConsts (traced sampleNetLink) "s" "2022::1"
            [OptIPv6, OptTimeout 60]) ["s"]
          = [EngineCall.HandleAddr 9 "s" sampleAddr6 netip.Prefix.zero [OptIPv6, OptTimeout 60]]
      ∧ calls (Del sampleParsers sampleConsts (traced sampleNetLink) "s" "2022::1") ["s"]
          = [EngineCall.HandleAddr 10 "s" sampleAddr6 netip.Prefix.zero []] :=
  ⟨rfl,
    ((add_and_del_differ_by_command_and_options sampleParsers sampleConsts sampleNetLink "s"
      "2022::1" [OptIPv6, OptTimeout 60] ["s"]).2.2.1 sampleAddr6 rfl).1,
    ((add_and_del_differ_by_command_and_options sampleParsers sampleConsts sampleNetLink "s"
      "2022::1" [OptIPv6, OptTimeout 60] ["s"]).2.2.1 sampleAddr6 rfl).2⟩

/-! ## Options -/

/-- C5: each option setter writes exactly its own field of Options. OptIPv6
sets `IPv6` to true and keeps `Timeout` and `Excl`; `OptTimeout t` sets
`Timeout` to `t` and keeps `IPv6` and `Excl`; OptExcl sets `Excl` to true and
keeps `IPv6` and `Timeout`. -/
theorem option_setters_write_only_their_field (o : netlink.Options) (t : Nat) :
    (OptIPv6 o = { o with IPv6 := true }
        ∧ (OptIPv6 o).IPv6 = true
        ∧ (OptIPv6 o).Timeout = o.Timeout
        ∧ (OptIPv6 o).Excl = o.Excl)
      ∧ (OptTimeout t o = { o with Timeout := t }
        ∧ (OptTimeout t o).Timeout = t
        ∧ (OptTimeout t o).IPv6 = o.IPv6
        ∧ (OptTimeout t o).Excl = o.Excl)
      ∧ (OptExcl o = { o with Excl := true }
        ∧ (OptExcl o).Excl = true
        ∧ (OptExcl o).IPv6 = o.IPv6
        ∧ (OptExcl o).Timeout = o.Timeout) :=
  ⟨⟨rfl, rfl, rfl, rfl⟩, ⟨rfl, rfl, rfl, rfl⟩, ⟨rfl, rfl, rfl, rfl⟩⟩

/-- C6: the facade never coerces the address family. Add on a string that
parses (as a bare address or as a CIDR), AddAddr and AddPrefix each send the
engine exactly one `HandleAddr` request, and the option list of that request is
exactly the list the caller gave, whatever the family of the entry; Add on a
string that does not parse sends nothing. So when the caller's options leave
`IPv6` false, an IPv6 address or IPv6 prefix still reaches the engine, with
options that leave `IPv6` false. -/
theorem add_passes_options_unchanged {σ : Type} (P : netip.Parsers) (K : netlink.Consts)
    (nl : netlink.NetLink σ) (setName : String) (opts : List netlink.Option) (st : σ) :
    (∀ s a, P.ParseAddr s = Except.ok a →
        calls (Add P K (traced nl) setName s opts) st
          = [EngineCall.HandleAddr K.IPSET_CMD_ADD setName a netip.Prefix.zero opts])
      ∧ (∀ s e p, P.ParseAddr s = Except.error e → P.ParsePrefix s = Except.ok p →
        calls (Add P K (traced nl) setName s opts) st
          = [EngineCall.HandleAddr K.IPSET_CMD_ADD setName p.Addr p opts])
      ∧ (∀ s e1 e2, P.ParseAddr s = Except.error e1 → P.ParsePrefix s = Except.error e2 →
        calls (Add P K (traced nl) setName s opts) st = [])
      ∧ (∀ s, ∀ c ∈ calls (Add P K (traced nl) setName s opts) st, c.opts = opts)
      ∧ (∀ ip, calls (AddAddr K (traced nl) setName ip opts) st
          = [EngineCall.HandleAddr K.IPSET_CMD_ADD setName ip netip.Prefix.zero opts])
      ∧ (∀ cidr, calls (AddPrefix K (traced nl) setName cidr opts) st
          = [EngineCall.HandleAddr K.IPSET_CMD_ADD setName cidr.Addr cidr opts])
      ∧ ((applyOptions opts {}).IPv6 = false →
          (∀ s, ∀ c ∈ calls (Add P K (traced nl) setName s opts) st,
              (applyOptions c.opts {}).IPv6 = false)
            ∧ (∀ s a, P.ParseAddr s = Except.ok a → a.Is6 = true →
                ∃ c, calls (Add P K (traced nl) setName s opts) st = [c]
                  ∧ c = EngineCall.HandleAddr K.IPSET_CMD_ADD setName a netip.Prefix.zero opts
                  ∧ (applyOptions c.opts {}).IPv6 = false)
            ∧ (∀ s e p, P.ParseAddr s = Except.error e → P.ParsePrefix s = Except.ok p →
                p.Addr.Is6 = true →
                ∃ c, calls (Add P K (traced nl) setName s opts) st = [c]
                  ∧ c = EngineCall.HandleAddr K.IPSET_CMD_ADD setName p.Addr p opts
                  ∧ (applyOptions c.opts {}).IPv6 = false)
            ∧ (∀ ip, ip.Is6 = true →
                ∀ c ∈ calls (AddAddr K (traced nl) setName ip opts) st,
                  (applyOptions c.opts {}).IPv6 = false)
            ∧ (∀ cidr, cidr.Addr.Is6 = true →
                ∀ c ∈ calls (AddPrefix K (traced nl) setName cidr opts) st,
                  (applyOptions c.opts {}).IPv6 = false)) := by
  have hAddr : ∀ s a, P.ParseAddr s = Except.ok a →
      calls (Add P K (traced nl) setName s opts) st
        = [EngineCall.HandleAddr K.IPSET_CMD_ADD setName a netip.Prefix.zero opts] := by
    intro s a h
    unfold Add
    rw [handleEntry_of_addr P _ _ setName s opts a h]
    rfl
  have hCidr : ∀ s e p, P.ParseAddr s = Except.error e → P.ParsePrefix s = Except.ok p →
      calls (Add P K (traced nl) setName s opts) st
        = [EngineCall.HandleAddr K.IPSET_CMD_ADD setName p.Addr p opts] := by
    intro s e p h1 h2
    unfold Add
    rw [handleEntry_of_cidr P _ _ setName s opts e p h1 h2]
    rfl
  have hNone : ∀ s e1 e2, P.ParseAddr s = Except.error e1 →
      P.ParsePrefix s = Except.error e2 →
      calls (Add P K (traced nl) setName s opts) st = [] := by
    intro s e1 e2 h1 h2
    unfold Add
    rw [handleEntry_of_neither P _ _ setName s opts e1 e2 h1 h2]
    rfl
  have hAdd : ∀ s, ∀ c ∈ calls (Add P K (traced nl) setName s opts) st, c.opts = opts := by
    intro s c hc
    unfold Add at hc
    rcases calls_handleEntry_cases P nl K.IPSET_CMD_ADD setName s opts st with h | ⟨ip, cidr, h⟩
    · rw [h] at hc
      cases hc
    · rw [h, List.mem_singleton] at hc
      rw [hc]
      rfl
  refine ⟨hAddr, hCidr, hNone, hAdd, fun ip => rfl, fun cidr => rfl, ?_⟩
  intro h6
  refine ⟨?_, ?_, ?_, ?_, ?_⟩
  · intro s c hc
    rw [hAdd s c hc]
    exact h6
  · intro s a h _
    exact ⟨_, hAddr s a h, rfl, h6⟩
  · intro s e p h1 h2 _
    exact ⟨_, hCidr s e p h1 h2, rfl, h6⟩
  · intro ip _ c hc
    have hc2 : c = EngineCall.HandleAddr K.IPSET_CMD_ADD setName ip netip.Prefix.zero opts :=
      List.mem_singleton.mp hc
    rw [hc2]
    exact h6
  · intro cidr _ c hc
    have hc2 : c = EngineCall.HandleAddr K.IPSET_CMD_ADD setName cidr.Addr cidr opts :=
      List.mem_singleton.mp hc
    rw [hc2]
    exact h6

theorem add_passes_options_unchanged_witness :
    (applyOptions [OptTimeout 60] {}).IPv6 = false
      ∧ sampleParsers.ParseAddr "2022::1" = Except.ok sampleAddr6
      ∧ sampleAddr6.Is6 = true
      ∧ calls (Add sampleParsers sampleConsts (traced sampleNetLink) "s" "2022::1"
            [OptTimeout 60]) ["s"]
          = [EngineCall.HandleAddr 9 "s" sampleAddr6 netip.Prefix.zero [OptTimeout 60]]
      ∧ sampleParsers.ParsePrefix "2022::1/32" = Except.ok samplePrefix6
      ∧ calls (Add sampleParsers sampleConsts (traced sampleNetLink) "s" "2022::1/32"
            [OptTimeout 60]) ["s"]
          = [EngineCall.HandleAddr 9 "s" sampleAddr6 samplePrefix6 [OptTimeout 60]]
      ∧ (∃ c, calls (Add sampleParsers sampleConsts (traced sampleNetLink) "s" "2022::1"
              [OptTimeout 60]) ["s"] = [c]
          ∧ c = EngineCall.HandleAddr 9 "s" sampleAddr6 netip.Prefix.zero [OptTimeout 60]
          ∧ (applyOptions c.opts {}).IPv6 = false)
      ∧ (applyOptions
            (EngineCall.HandleAddr 9 "s" sampleAddr6 netip.Prefix.zero [OptTimeout 60]).opts
            {}).IPv6 = false :=
  ⟨rfl, rfl, rfl,
    (add_passes_options_unchanged sampleParsers sampleConsts sampleNetLink "s" [OptTimeout 60]
      ["s"]).1 "2022::1" sampleAddr6 rfl,
    rfl,
    (add_passes_options_unchanged sampleParsers sampleConsts sampleNetLink "s" [OptTimeout 60]
      ["s"]).2.1 "2022::1/32" _ samplePrefix6 rfl rfl,
    ((add_passes_options_unchanged sampleParsers sampleConsts sampleNetLink "s" [OptTimeout 60]
      ["s"]).2.2.2.2.2.2 rfl).2.1 "2022::1" sampleAddr6 rfl rfl,
    ((add_passes_options_unchanged sampleParsers sampleConsts sampleNetLink "s" [OptTimeout 60]
      ["s"]).2.2.2.2.2.2 rfl).2.2.2.1 sampleAddr6 rfl _ (List.mem_singleton.mpr rfl)⟩

theorem applyOptions_append (xs ys : List netlink.Option) (o : netlink.Options) :
    applyOptions (xs ++ ys) o = applyOptions ys (applyOptions xs o) := by
  simp [applyOptions, List.foldl_append]

theorem lastTimeout_concat (L : List OptionKind) (k : OptionKind) :
    lastTimeout (L ++ [k]) = (k.timeoutArg).getD (lastTimeout L) := by
  cases k <;> simp [lastTimeout, List.filterMap_append, OptionKind.timeoutArg]

theorem applyOptions_eq_configOf (L : List OptionKind) :
    applyOptions (L.map OptionKind.toOption) {} = configOf L := by
  induction L using List.reverseRecOn with
  | nil => rfl
  | append_singleton L k ih =>
    rw [List.map_append, applyOptions_append, ih]
    cases k <;>
      simp [applyOptions, OptionKind.toOption, OptIPv6, OptTimeout, OptExcl, configOf,
        lastTimeout_concat, OptionKind.timeoutArg]

/-- C7: applying a list of setters, each OptIPv6, OptExcl or `OptTimeout t`, in
order to the default Options gives the plain configuration struct: `IPv6` is
true iff the list has an OptIPv6, `Excl` is true iff it has an OptExcl, and
`Timeout` is the argument of the last OptTimeout, or 0 without one. Hence the
empty list gives the defaults, OptIPv6 and OptExcl are idempotent, and setters
of different fields commute. -/
theorem setter_list_is_config_struct (L : List OptionKind) (o : netlink.Options) (t : Nat) :
    applyOptions (L.map OptionKind.toOption) {} = configOf L
      ∧ ((applyOptions (L.map OptionKind.toOption) {}).IPv6 = true ↔ OptionKind.ipv6 ∈ L)
      ∧ ((applyOptions (L.map OptionKind.toOption) {}).Excl = true ↔ OptionKind.excl ∈ L)
      ∧ (applyOptions (L.map OptionKind.toOption) {}).Timeout = lastTimeout L
      ∧ lastTimeout (L ++ [OptionKind.timeout t]) = t
      ∧ ((∀ u, OptionKind.timeout u ∉ L) → lastTimeout L = 0)
      ∧ applyOptions [] {} = { IPv6 := false, Timeout := 0, Excl := false }
      ∧ OptIPv6 (OptIPv6 o) = OptIPv6 o
      ∧ OptExcl (OptExcl o) = OptExcl o
      ∧ OptIPv6 (OptExcl o) = OptExcl (OptIPv6 o)
      ∧ OptIPv6 (OptTimeout t o) = OptTimeout t (OptIPv6 o)
      ∧ OptExcl (OptTimeout t o) = OptTimeout t (OptExcl o) := by
  refine ⟨applyOptions_eq_configOf L, ?_, ?_, ?_, ?_, ?_, rfl, rfl, rfl, rfl, rfl, rfl⟩
  · rw [applyOptions_eq_configOf]
    simp [configOf]
  · rw [applyOptions_eq_configOf]
    simp [configOf]
  · rw [applyOptions_eq_configOf]
    rfl
  · rw [lastTimeout_concat]
    rfl
  · intro hnone
    have hnil : L.filterMap OptionKind.timeoutArg = [] := by
      rw [List.filterMap_eq_nil_iff]
      intro k hk
      cases k with
      | ipv6 => rfl
      | timeout u => exact absurd hk (hnone u)
      | excl => rfl
    simp [lastTimeout, hnil]

theorem setter_list_is_config_struct_witness :
    (∀ u, OptionKind.timeout u ∉ [OptionKind.excl, OptionKind.ipv6])
      ∧ lastTimeout [OptionKind.excl, OptionKind.ipv6] = 0
      ∧ applyOptions [OptTimeout 30, OptExcl, OptTimeout 60] {}
          = { IPv6 := false, Timeout := 60, Excl := true } :=
  ⟨by simp,
    (setter_list_is_config_struct [OptionKind.excl, OptionKind.ipv6] {} 0).2.2.2.2.2.1 (by simp),
    (setter_list_is_config_struct
      [OptionKind.timeout 30, OptionKind.excl, OptionKind.timeout 60] {} 0).1⟩

/-! ## The engine result is returned as it is -/

/-- C8: every facade operation returns the engine result unchanged and calls
the engine at most once. Create, Destroy, Flush, CloseNetLink, AddAddr, DelAddr,
AddPrefix and DelPrefix each send one request (CreateSet, DestroySet, FlushSet,
Close, HandleAddr) and return its error and resulting state; Add and Del send
one HandleAddr request and return its result when the entry parses, and send
none when it does not. -/
theorem facade_returns_engine_result_once {σ : Type} (P : netip.Parsers) (K : netlink.Consts)
    (nl : netlink.NetLink σ) (setName s : String) (ip : netip.Addr) (cidr : netip.Prefix)
    (opts : List netlink.Option) (st : σ) (log : List EngineCall) :
    Create (traced nl) setName opts (st, log)
        = ((nl.CreateSet setName opts st).1,
            ((nl.CreateSet setName opts st).2, log ++ [EngineCall.CreateSet setName opts]))
      ∧ Destroy (traced nl) setName (st, log)
        = ((nl.DestroySet setName st).1,
            ((nl.DestroySet setName st).2, log ++ [EngineCall.DestroySet setName]))
      ∧ Flush (traced nl) setName (st, log)
        = ((nl.FlushSet setName st).1,
            ((nl.FlushSet setName st).2, log ++ [EngineCall.FlushSet setName]))
      ∧ CloseNetLink (traced nl) (st, log)
        = ((nl.Close st).1, ((nl.Close st).2, log ++ [EngineCall.Close]))
      ∧ AddAddr K (traced nl) setName ip opts (st, log)
        = ((nl.HandleAddr K.IPSET_CMD_ADD setName ip netip.Prefix.zero opts st).1,
            ((nl.HandleAddr K.IPSET_CMD_ADD setName ip netip.Prefix.zero opts st).2,
              log ++ [EngineCall.HandleAddr K.IPSET_CMD_ADD setName ip netip.Prefix.zero opts]))
      ∧ DelAddr K (traced nl) setName ip (st, log)
        = ((nl.HandleAddr K.IPSET_CMD_DEL setName ip netip.Prefix.zero [] st).1,
            ((nl.HandleAddr K.IPSET_CMD_DEL setName ip netip.Prefix.zero [] st).2,
              log ++ [EngineCall.HandleAddr K.IPSET_CMD_DEL setName ip netip.Prefix.zero []]))
      ∧ AddPrefix K (traced nl) setName cidr opts (st, log)
        = ((nl.HandleAddr K.IPSET_CMD_ADD setName cidr.Addr cidr opts st).1,
            ((nl.HandleAddr K.IPSET_CMD_ADD setName cidr.Addr cidr opts st).2,
              log ++ [EngineCall.HandleAddr K.IPSET_CMD_ADD setName cidr.Addr cidr opts]))
      ∧ DelPrefix K (traced nl) setName cidr (st, log)
        = ((nl.HandleAddr K.IPSET_CMD_DEL setName cidr.Addr cidr [] st).1,
            ((nl.HandleAddr K.IPSET_CMD_DEL setName cidr.Addr cidr [] st).2,
              log ++ [EngineCall.HandleAddr K.IPSET_CMD_DEL setName cidr.Addr cidr []]))
      ∧ (∀ a, P.ParseAddr s = Except.ok a →
          Add P K (traced nl) setName s opts (st, log)
              = ((nl.HandleAddr K.IPSET_CMD_ADD setName a netip.Prefix.zero opts st).1,
                  ((nl.HandleAddr K.IPSET_CMD_ADD setName a netip.Prefix.zero opts st).2,
                    log ++ [EngineCall.HandleAddr K.IPSET_CMD_ADD setName a netip.Prefix.zero
                      opts]))
            ∧ Del P K (traced nl) setName s (st, log)
              = ((nl.HandleAddr K.IPSET_CMD_DEL setName a netip.Prefix.zero [] st).1,
                  ((nl.HandleAddr K.IPSET_CMD_DEL setName a netip.Prefix.zero [] st).2,
                    log ++ [EngineCall.HandleAddr K.IPSET_CMD_DEL setName a netip.Prefix.zero
                      []])))
      ∧ (∀ e p, P.ParseAddr s = Except.error e → P.ParsePrefix s = Except.ok p →
          Add P K (traced nl) setName s opts (st, log)
              = ((nl.HandleAddr K.IPSET_CMD_ADD setName p.Addr p opts st).1,
                  ((nl.HandleAddr K.IPSET_CMD_ADD setName p.Addr p opts st).2,
                    log ++ [EngineCall.HandleAddr K.IPSET_CMD_ADD setName p.Addr p opts]))
            ∧ Del P K (traced nl) setName s (st, log)
              = ((nl.HandleAddr K.IPSET_CMD_DEL setName p.Addr p [] st).1,
                  ((nl.HandleAddr K.IPSET_CMD_DEL setName p.Addr p [] st).2,
                    log ++ [EngineCall.HandleAddr K.IPSET_CMD_DEL setName p.Addr p []])))
      ∧ (∀ e1 e2, P.ParseAddr s = Except.error e1 → P.ParsePrefix s = Except.error e2 →
          Add P K (traced nl) setName s opts (st, log) = (some e2, (st, log))
            ∧ Del P K (traced nl) setName s (st, log) = (some e2, (st, log))) := by
  refine ⟨rfl, rfl, rfl, rfl, rfl, rfl, rfl, rfl, ?_, ?_, ?_⟩
  · intro a h1
    constructor
    · unfold Add
      rw [handleEntry_of_addr P _ _ setName s opts a h1, traced_HandleAddr_apply]
    · unfold Del
      rw [handleEntry_of_addr P _ _ setName s [] a h1, traced_HandleAddr_apply]
  · intro e p h1 h2
    constructor
    · unfold Add
      rw [handleEntry_of_cidr P _ _ setName s opts e p h1 h2, traced_HandleAddr_apply]
    · unfold Del
      rw [handleEntry_of_cidr P _ _ setName s [] e p h1 h2, traced_HandleAddr_apply]
  · intro e1 e2 h1 h2
    constructor
    · unfold Add
      rw [handleEntry_of_neither P _ _ setName s opts e1 e2 h1 h2]
    · unfold Del
      rw [handleEntry_of_neither P _ _ setName s [] e1 e2 h1 h2]

theorem facade_returns_engine_result_once_witness :
    sampleParsers.ParseAddr "192.168.1.0/24"
        = Except.error { text := "ParseAddr: unable to parse IP" }
      ∧ sampleParsers.ParsePrefix "192.168.1.0/24" = Except.ok samplePrefix4
      ∧ Add sampleParsers sampleConsts (traced sampleNetLink) "s" "192.168.1.0/24" [OptIPv6]
            (["s"], [EngineCall.FlushSet "s"])
          = (some { text := "invalid argument" }, (["s"],
              [EngineCall.FlushSet "s",
                EngineCall.HandleAddr 9 "s" samplePrefix4.ip samplePrefix4 [OptIPv6]]))
      ∧ Destroy (traced sampleNetLink) "t" (["s"], [])
          = (some { text := "not found" }, (["s"], [EngineCall.DestroySet "t"])) :=
  ⟨rfl, rfl,
    ((facade_returns_engine_result_once sampleParsers sampleConsts sampleNetLink "s"
      "192.168.1.0/24" sampleAddr4 samplePrefix4 [OptIPv6] ["s"]
      [EngineCall.FlushSet "s"]).2.2.2.2.2.2.2.2.2.1 _ samplePrefix4 rfl rfl).1,
    (facade_returns_engine_result_once sampleParsers sampleConsts sampleNetLink "t"
      "192.168.1.0/24" sampleAddr4 samplePrefix4 [OptIPv6] ["s"] []).2.1⟩

/-! ## String and typed entry points -/

/-- C9: the string entry points agree with the typed ones. If `ParseAddr(s)`
succeeds with `a`, Add on `s` is AddAddr on `a` and Del on `s` is DelAddr on `a`;
if `ParseAddr(s)` fails and `ParsePrefix(s)` succeeds with `p`, Add on `s` is
AddPrefix on `p` and Del on `s` is DelPrefix on `p`. -/
theorem string_entry_points_agree_with_typed {σ : Type} (P : netip.Parsers)
    (K : netlink.Consts) (nl : netlink.NetLink σ) (setName s : String)
    (opts : List netlink.Option) :
    (∀ a, P.ParseAddr s = Except.ok a →
        Add P K nl setName s opts = AddAddr K nl setName a opts
          ∧ Del P K nl setName s = DelAddr K nl setName a)
      ∧ (∀ e p, P.ParseAddr s = Except.error e → P.ParsePrefix s = Except.ok p →
        Add P K nl setName s opts = AddPrefix K nl setName p opts
          ∧ Del P K nl setName s = DelPrefix K nl setName p) := by
  constructor
  · intro a h
    exact ⟨handleEntry_of_addr P nl _ setName s opts a h,
      handleEntry_of_addr P nl _ setName s [] a h⟩
  · intro e p h1 h2
    exact ⟨handleEntry_of_cidr P nl _ setName s opts e p h1 h2,
      handleEntry_of_cidr P nl _ setName s [] e p h1 h2⟩

theorem string_entry_points_agree_with_typed_witness :
    sampleParsers.ParseAddr "2022::1" = Except.ok sampleAddr6
      ∧ Add sampleParsers sampleConsts sampleNetLink "s" "2022::1" [OptIPv6]
          = AddAddr sampleConsts sampleNetLink "s" sampleAddr6 [OptIPv6]
      ∧ sampleParsers.ParsePrefix "192.168.1.0/24" = Except.ok samplePrefix4
      ∧ Del sampleParsers sampleConsts sampleNetLink "s" "192.168.1.0/24"
          = DelPrefix sampleConsts sampleNetLink "s" samplePrefix4 :=
  ⟨rfl,
    ((string_entry_points_agree_with_typed sampleParsers sampleConsts sampleNetLink "s" "2022::1"
      [OptIPv6]).1 sampleAddr6 rfl).1,
    rfl,
    ((string_entry_points_agree_with_typed sampleParsers sampleConsts sampleNetLink "s"
      "192.168.1.0/24" []).2 _ samplePrefix4 rfl rfl).2⟩

/-! ## Deletes carry no options -/

/-- C10: delete operations never carry options. Every request that Del,
DelAddr or DelPrefix sends to the engine has the empty option list, so the
Options the engine derives from it are the defaults (`IPv6` false, `Timeout` 0,
`Excl` false), also when the entry deleted is an IPv6 address or prefix. -/
theorem delete_carries_no_options {σ : Type} (P : netip.Parsers) (K : netlink.Consts)
    (nl : netlink.NetLink σ) (setName s : String) (ip : netip.Addr) (cidr : netip.Prefix)
    (st : σ) :
    (∀ c ∈ calls (Del P K (traced nl) setName s) st,
        c.opts = [] ∧ applyOptions c.opts {} = { IPv6 := false, Timeout := 0, Excl := false })
      ∧ calls (DelAddr K (traced nl) setName ip) st
          = [EngineCall.HandleAddr K.IPSET_CMD_DEL setName ip netip.Prefix.zero []]
      ∧ calls (DelPrefix K (traced nl) setName cidr) st
          = [EngineCall.HandleAddr K.IPSET_CMD_DEL setName cidr.Addr cidr []]
      ∧ (∀ c ∈ calls (DelAddr K (traced nl) setName ip) st,
          c.opts = [] ∧ applyOptions c.opts {} = { IPv6 := false, Timeout := 0, Excl := false })
      ∧ (∀ c ∈ calls (DelPrefix K (traced nl) setName cidr) st,
          c.opts = [] ∧ applyOptions c.opts {} = { IPv6 := false, Timeout := 0, Excl := false })
      ∧ (∀ a, P.ParseAddr s = Except.ok a →
          calls (Del P K (traced nl) setName s) st
            = [EngineCall.HandleAddr K.IPSET_CMD_DEL setName a netip.Prefix.zero []])
      ∧ (∀ e p, P.ParseAddr s = Except.error e → P.ParsePrefix s = Except.ok p →
          calls (Del P K (traced nl) setName s) st
            = [EngineCall.HandleAddr K.IPSET_CMD_DEL setName p.Addr p []]) := by
  refine ⟨?_, rfl, rfl, ?_, ?_, ?_, ?_⟩
  · intro c hc
    unfold Del at hc
    rcases calls_handleEntry_cases P nl K.IPSET_CMD_DEL setName s [] st with h | ⟨a, p, h⟩
    · rw [h] at hc
      cases hc
    · rw [h, List.mem_singleton] at hc
      rw [hc]
      exact ⟨rfl, rfl⟩
  · intro c hc
    have hc2 : c = EngineCall.HandleAddr K.IPSET_CMD_DEL setName ip netip.Prefix.zero [] :=
      List.mem_singleton.mp hc
    rw [hc2]
    exact ⟨rfl, rfl⟩
  · intro c hc
    have hc2 : c = EngineCall.HandleAddr K.IPSET_CMD_DEL setName cidr.Addr cidr [] :=
      List.mem_singleton.mp hc
    rw [hc2]
    exact ⟨rfl, rfl⟩
  · intro a h
    unfold Del
    rw [handleEntry_of_addr P _ _ setName s [] a h]
    rfl
  · intro e p h1 h2
    unfold Del
    rw [handleEntry_of_cidr P _ _ setName s [] e p h1 h2]
    rfl

theorem delete_carries_no_options_witness :
    sampleParsers.ParseAddr "2022::1" = Except.ok sampleAddr6
      ∧ sampleAddr6.Is6 = true
      ∧ calls (Del sampleParsers sampleConsts (traced sampleNetLink) "s" "2022::1") ["s"]
          = [EngineCall.HandleAddr 10 "s" sampleAddr6 netip.Prefix.zero []]
      ∧ Del sampleParsers sampleConsts sampleNetLink "s" "2022::1" ["s"]
          = (some { text := "invalid argument" }, ["s"]) :=
  ⟨rfl, rfl,
    (delete_carries_no_options sampleParsers sampleConsts sampleNetLink "s" "2022::1" sampleAddr6
      samplePrefix6 ["s"]).2.2.2.2.2.1 sampleAddr6 rfl,
    rfl⟩

end ipset
